import Mathlib

/-!
Verification development for the dev-orchestrator dashboard and its
guardrail policy engine.

The observer (dashboard) logic is embedded from dashboard/src/App.tsx:
the WebSocket message handler that maintains the client-side snapshot,
the connection-open handler, the command submission helper, and the
approval review dialog. Strings of command text are modelled as lists of
characters; JavaScript objects keyed by id are modelled as association
lists in insertion order.

The guardrail policy engine lives in the Python backend, which is not
part of the analysed sources, so it is modelled from the specification
(section 4.1) and marked as such on its definitions.
-/

namespace DevOrchestrator

/-- Character list standing for a JavaScript string of command text. -/
abbrev Chars := List Char

/-- Boolean test that the first list is a leading segment of the second. -/
def startsWithB : Chars → Chars → Bool
  | [], _ => true
  | _ :: _, [] => false
  | a :: as, b :: bs => a == b && startsWithB as bs

/-- Boolean test that the pattern occurs as a contiguous segment of the text. -/
def containsSub (pat : Chars) : Chars → Bool
  | [] => startsWithB pat []
  | b :: bs => startsWithB pat (b :: bs) || containsSub pat bs

/-- Modelled from the spec: guardrail configuration (section 4.1 and the
README configuration sample) — the allow-listed working directories, the
hard-block patterns, and the approval-required patterns each paired with
the reason reported when they match. The backend module holding this
configuration (config.py) is not among the analysed sources. -/
structure GuardrailConfig where
  allowed_directories : List Chars
  hard_block_patterns : List Chars
  approval_required_patterns : List (Chars × Chars)

/-- Classification result of the guardrail policy engine. -/
inductive GuardResult where
  | allowed : GuardResult
  | blocked (reason : Chars) : GuardResult
  | needsApproval (reason : Chars) : GuardResult
deriving DecidableEq

/-- Whether a classification result is Blocked. -/
def GuardResult.isBlocked : GuardResult → Bool
  | .blocked _ => true
  | _ => false

/-- A working directory is allowed when some configured directory is a
leading segment of it. -/
def dirAllowed (cfg : GuardrailConfig) (cwd : Chars) : Bool :=
  cfg.allowed_directories.any (fun d => startsWithB d cwd)

/-- First hard-block pattern matching the command text, if any. -/
def findHardBlock (cfg : GuardrailConfig) (text : Chars) : Option Chars :=
  cfg.hard_block_patterns.find? (fun p => containsSub p text)

/-- First approval-required rule matching the command text, if any. -/
def findApproval (cfg : GuardrailConfig) (text : Chars) : Option (Chars × Chars) :=
  cfg.approval_required_patterns.find? (fun pr => containsSub pr.1 text)

/-- Reason attached to a rejection caused by the working directory. -/
def directoryBlockedReason : Chars := "working directory outside allow-list".toList

/-- Modelled from the spec: the guardrail policy engine (section 4.1).
Evaluation order: a working directory outside the allow-list is Blocked;
then any hard-block pattern match is Blocked; then any approval-required
pattern match is NeedsApproval with the matched reason; otherwise Allowed.
The backend module implementing this (executor.py guardrails) is not among
the analysed sources. -/
def evaluate (cfg : GuardrailConfig) (text cwd : Chars) : GuardResult :=
  if dirAllowed cfg cwd = false then
    .blocked directoryBlockedReason
  else
    match findHardBlock cfg text with
    | some p => .blocked p
    | none =>
      match findApproval cfg text with
      | some pr => .needsApproval pr.2
      | none => .allowed

/-- Project profile as declared in App.tsx. -/
structure ProjectProfile where
  name : String
  path : String
  project_type : List String
  has_python : Bool
  has_fastapi : Bool
  has_node : Bool
  has_react : Bool
  has_git : Bool
  git_branch : Option String
  git_user_email : Option String
  venv_path : Option String
  backend_port : Option Nat
  frontend_port : Option Nat
deriving DecidableEq

/-- Service record as declared in App.tsx. -/
structure Service where
  id : String
  name : String
  command : String
  cwd : String
  port : Option Nat
  pid : Nat
  started_at : String
  status : String
deriving DecidableEq

/-- Command history entry as declared in App.tsx. -/
structure CommandHistory where
  command : String
  cwd : String
  status : String
  exit_code : Option Int
  timestamp : String
deriving DecidableEq

/-- Pending approval as declared in App.tsx. -/
structure PendingApproval where
  id : String
  command : String
  cwd : String
  reason : String
  requested_at : String
deriving DecidableEq

/-- Log entry as declared in App.tsx. -/
structure LogEntry where
  level : String
  message : String
  source : String
  timestamp : String
deriving DecidableEq

/-- Repository info as declared in App.tsx. -/
structure RepoInfo where
  name : String
  path : String
  branch : Option String
  has_uncommitted_changes : Bool
  ahead_behind : Option String
  last_commit_message : Option String
  last_commit_time : Option String
  last_commit_author : Option String
  is_git_repo : Bool
  error : Option String
deriving DecidableEq

/-- Workspace status as declared in App.tsx. -/
structure WorkspaceStatus where
  workspace_root : String
  total_repos : Nat
  repos_with_changes : Nat
  repos_ahead_of_upstream : Nat
  repos_need_pull : Nat
  repos : List RepoInfo
deriving DecidableEq

/-- Saved command as declared in App.tsx. -/
structure SavedCommand where
  id : String
  name : String
  command : String
  cwd : Option String
  description : Option String
  created_at : String
deriving DecidableEq

/-- Plugin tool as declared in App.tsx. -/
structure PluginTool where
  id : String
  plugin_id : String
  tool_name : String
  enabled : Bool
deriving DecidableEq

/-- Plugin as declared in App.tsx. -/
structure Plugin where
  id : String
  name : String
  git_url : String
  version : Option String
  author : Option String
  description : Option String
  installed_at : String
  enabled : Bool
  install_path : String
  tools : List PluginTool
deriving DecidableEq

/-- Client snapshot (AppState in App.tsx). The services map, a JavaScript
object keyed by service id, is an association list in insertion order. -/
structure AppState where
  current_project : Option ProjectProfile
  services : List (String × Service)
  command_history : List CommandHistory
  pending_approvals : List PendingApproval
  logs : List LogEntry
  workspace : Option WorkspaceStatus
  saved_commands : Option (List SavedCommand)
  plugins : Option (List Plugin)
deriving DecidableEq

/-- Lookup of a service by id in the services map. -/
def lookupService (m : List (String × Service)) (k : String) : Option Service :=
  (m.find? (fun p => p.1 == k)).map (fun p => p.2)

/-- Spread-update of the services map, as the service_started case writes
it: an existing key is updated in place, a new key is appended. -/
def setService (m : List (String × Service)) (svc : Service) : List (String × Service) :=
  if m.any (fun p => p.1 == svc.id) then
    m.map (fun p => if p.1 == svc.id then (svc.id, svc) else p)
  else
    m ++ [(svc.id, svc)]

/-- Deletion from the services map, as the service_stopped case writes it. -/
def removeService (m : List (String × Service)) (k : String) : List (String × Service) :=
  m.filter (fun p => p.1 != k)

/-- Last n elements of a list, the meaning of the JavaScript slice with a
negative start index used by the ring-buffer cases of handleMessage. -/
def lastN (n : Nat) (l : List α) : List α :=
  l.drop (l.length - n)

/-- Typed events of the delta channel handled by App.tsx handleMessage.
Any message whose type string is not one of the handled cases is the
unknown constructor, carrying that type string. -/
inductive Event where
  | state (snapshot : AppState)
  | projectChanged (p : ProjectProfile)
  | serviceStarted (svc : Service)
  | serviceStopped (id : String)
  | approvalRequired (a : PendingApproval)
  | approvalResolved (id : String)
  | command (c : CommandHistory)
  | log (entry : LogEntry)
  | workspace (w : WorkspaceStatus)
  | savedCommands (cs : List SavedCommand)
  | logsCleared
  | plugins (ps : List Plugin)
  | pluginInstalled
  | pluginUninstalled
  | pluginToggled
  | pluginToolToggled
  | unknown (msgType : String)
deriving DecidableEq

/-- Whether an event is the full-snapshot event. -/
def Event.isState : Event → Bool
  | .state _ => true
  | _ => false

/-- The event type strings handled by the switch in handleMessage. -/
def handledTypes : List String :=
  ["state", "project_changed", "service_started", "service_stopped",
   "approval_required", "approval_resolved", "command", "log", "workspace",
   "saved_commands", "logs_cleared", "plugins", "plugin_installed",
   "plugin_uninstalled", "plugin_toggled", "plugin_tool_toggled"]

/-- State transition of App.tsx handleMessage. The observer state is
Option AppState, none standing for the initial null. Each delta case maps
over the previous state, returning none when it was null, exactly as the
conditional expressions in the source do. The four plugin_ events only
request a fresh plugin list over the socket and leave the snapshot as it
was, and a type string outside the switch changes nothing. -/
def handleMessage (prev : Option AppState) (e : Event) : Option AppState :=
  match e with
  | .state snapshot => some snapshot
  | .projectChanged p =>
      prev.map (fun s => { s with current_project := some p })
  | .serviceStarted svc =>
      prev.map (fun s => { s with services := setService s.services svc })
  | .serviceStopped id =>
      prev.map (fun s => { s with services := removeService s.services id })
  | .approvalRequired a =>
      prev.map (fun s => { s with pending_approvals := s.pending_approvals ++ [a] })
  | .approvalResolved id =>
      prev.map (fun s =>
        { s with pending_approvals := s.pending_approvals.filter (fun a => a.id != id) })
  | .command c =>
      prev.map (fun s =>
        { s with command_history := lastN 49 s.command_history ++ [c] })
  | .log entry =>
      prev.map (fun s => { s with logs := lastN 99 s.logs ++ [entry] })
  | .workspace w =>
      prev.map (fun s => { s with workspace := some w })
  | .savedCommands cs =>
      prev.map (fun s => { s with saved_commands := some cs })
  | .logsCleared =>
      prev.map (fun s => { s with logs := [] })
  | .plugins ps =>
      prev.map (fun s => { s with plugins := some ps })
  | .pluginInstalled => prev
  | .pluginUninstalled => prev
  | .pluginToggled => prev
  | .pluginToolToggled => prev
  | .unknown _ => prev

/-- Messages the dashboard client sends over the socket. -/
inductive ClientMsg where
  | getState
  | listPlugins
  | approve (approval_id : String)
  | reject (approval_id : String)
  | stopServiceMsg (service_id : String)
  | runCommand (command : Chars) (use_nlp : Bool)
deriving DecidableEq

/-- Connection-related component state of App.tsx. -/
structure ConnState where
  connected : Bool
  reconnectAttempts : Nat
deriving DecidableEq

/-- The ws.onopen handler of connect in App.tsx: marks the connection
live, resets the reconnect counter, and sends get_state followed by
list_plugins. -/
def onOpen (_c : ConnState) : ConnState × List ClientMsg :=
  ({ connected := true, reconnectAttempts := 0 },
   [ClientMsg.getState, ClientMsg.listPlugins])

/-- Leading and trailing whitespace removal, the meaning of the trim
calls in sendCommand. -/
def jsTrim (s : Chars) : Chars :=
  ((s.dropWhile Char.isWhitespace).reverse.dropWhile Char.isWhitespace).reverse

/-- The sendCommand handler of App.tsx: when the trimmed input is empty
or the socket is not open it sends nothing, otherwise it sends one
run_command message whose command field is the trimmed input. -/
def sendCommand (input : Chars) (useNlp : Bool) (connOpen : Bool) : Option ClientMsg :=
  if (jsTrim input).isEmpty || !connOpen then
    none
  else
    some (ClientMsg.runCommand (jsTrim input) useNlp)

/-- Text nodes of the approval review dialog in App.tsx, rendered when a
pending approval is selected for decision, in document order: the dialog
title, the reason alert, the Command label and the full command text, the
Working Directory label and the full working directory, and the three
action buttons. -/
def approvalDialogTexts (a : PendingApproval) : List String :=
  ["Command Approval Required", a.reason,
   "Command", a.command,
   "Working Directory", a.cwd,
   "Cancel", "Reject", "Approve"]

/-- Text nodes of one entry of the pending-approvals card in App.tsx: the
reason, a 60-character preview of the command, and the Review button that
opens the dialog. No approve or reject control appears here. -/
def approvalCardEntryTexts (a : PendingApproval) : List String :=
  [a.reason, a.command.take 60 ++ "...", "Review"]

/-- Concrete guardrail configuration used to exercise the engine. -/
def cfgEx : GuardrailConfig :=
  { allowed_directories := ["/Users/dev/work".toList],
    hard_block_patterns := ["rm -rf /".toList, "mkfs".toList],
    approval_required_patterns :=
      [("git push --force".toList, "forced push".toList),
       ("sudo".toList, "privilege escalation".toList)] }

/-- Empty client snapshot used to exercise the message handler. -/
def state0 : AppState :=
  { current_project := none, services := [], command_history := [],
    pending_approvals := [], logs := [], workspace := none,
    saved_commands := none, plugins := none }

/-- Concrete command history entry. -/
def cmdEx : CommandHistory :=
  { command := "ls -la", cwd := "/Users/dev/work", status := "completed",
    exit_code := some 0, timestamp := "t0" }

/-- Concrete log entry. -/
def logEx : LogEntry :=
  { level := "INFO", message := "ok", source := "executor", timestamp := "t1" }

/-- Concrete pending approval. -/
def approvalA : PendingApproval :=
  { id := "ap-1", command := "git push --force", cwd := "/Users/dev/work/app",
    reason := "forced push", requested_at := "t2" }

/-- Second concrete pending approval. -/
def approvalB : PendingApproval :=
  { id := "ap-2", command := "sudo make install", cwd := "/Users/dev/work/app",
    reason := "privilege escalation", requested_at := "t3" }

/-- Snapshot holding the two concrete pending approvals. -/
def stateAB : AppState :=
  { state0 with pending_approvals := [approvalA, approvalB] }

/-- Concrete service record. -/
def svcEx : Service :=
  { id := "svc-1", name := "web", command := "npm run dev",
    cwd := "/Users/dev/work/app", port := some 3000, pid := 4242,
    started_at := "t4", status := "running" }

/-- Snapshot holding the concrete service. -/
def stateSvc : AppState :=
  { state0 with services := [(svcEx.id, svcEx)] }

/-- Removing a key from the services map makes lookup of that key fail. -/
theorem lookupService_removeService_self (m : List (String × Service)) (k : String) :
    lookupService (removeService m k) k = none := by
  induction m with
  | nil => rfl
  | cons p rest ih =>
    by_cases h : p.1 = k
    · simpa [removeService, h] using ih
    · simp only [removeService, List.filter_cons] at ih ⊢
      have hb : (p.1 != k) = true := by simpa using h
      simp only [hb, if_true]
      simp only [lookupService, List.find?_cons] at ih ⊢
      have hbeq : (p.1 == k) = false := by simpa using h
      simp only [hbeq]
      exact ih

/-- Removing a key from the services map leaves lookup of every other key
unchanged. -/
theorem lookupService_removeService_other (m : List (String × Service)) (id k : String)
    (hne : k ≠ id) :
    lookupService (removeService m id) k = lookupService m k := by
  induction m with
  | nil => rfl
  | cons p rest ih =>
    by_cases h : p.1 = id
    · have hbeq : (p.1 == k) = false := by
        simp only [beq_eq_false_iff_ne, ne_eq]
        exact fun hpk => hne (hpk ▸ h.symm ▸ rfl)
      simp only [removeService, List.filter_cons] at ih ⊢
      have hb : (p.1 != id) = false := by simpa using h
      simp only [hb, if_false] at *
      simp only [lookupService, List.find?_cons, hbeq] at *
      exact ih
    · simp only [removeService, List.filter_cons] at ih ⊢
      have hb : (p.1 != id) = true := by simpa using h
      simp only [hb, if_true]
      by_cases hk : p.1 = k
      · simp [lookupService, List.find?_cons, hk]
      · have hbeq : (p.1 == k) = false := by simpa using hk
        simp only [lookupService, List.find?_cons, hbeq] at ih ⊢
        exact ih

/-- A character list all of whose members are whitespace trims to the
empty list. -/
theorem jsTrim_eq_nil_of_all_ws (l : Chars)
    (h : ∀ c ∈ l, c.isWhitespace = true) :
    jsTrim l = [] := by
  have h1 : l.dropWhile Char.isWhitespace = [] :=
    List.dropWhile_eq_nil_iff.mpr (by simpa using h)
  simp [jsTrim, h1]

/-- C1: the guardrail policy engine evaluates in the fixed order — a
working directory outside the allow-list is Blocked; otherwise any
hard-block pattern match is Blocked (even when an approval-required
pattern also matches, since the hard-block test is decided first); next an
approval-required match yields NeedsApproval with the matched reason; and
with no match at all the command is Allowed. -/
theorem guardrail_evaluation_order (cfg : GuardrailConfig) (text cwd : Chars) :
    (dirAllowed cfg cwd = false →
        evaluate cfg text cwd = GuardResult.blocked directoryBlockedReason)
  ∧ (∀ p ∈ cfg.hard_block_patterns, containsSub p text = true →
        (evaluate cfg text cwd).isBlocked = true)
  ∧ (∀ p r, dirAllowed cfg cwd = true → findHardBlock cfg text = none →
        findApproval cfg text = some (p, r) →
        evaluate cfg text cwd = GuardResult.needsApproval r)
  ∧ (dirAllowed cfg cwd = true → findHardBlock cfg text = none →
        findApproval cfg text = none →
        evaluate cfg text cwd = GuardResult.allowed) := by
  refine ⟨fun h => by simp [evaluate, h], ?_, ?_, ?_⟩
  · intro p hp hmatch
    by_cases hd : dirAllowed cfg cwd = false
    · simp [evaluate, hd, GuardResult.isBlocked]
    · obtain ⟨q, hq⟩ : ∃ q, findHardBlock cfg text = some q := by
        have : (findHardBlock cfg text).isSome := by
          unfold findHardBlock
          exact List.find?_isSome.mpr ⟨p, hp, hmatch⟩
        exact Option.isSome_iff_exists.mp this
      simp [evaluate, hd, hq, GuardResult.isBlocked]
  · intro p r hd hhard happ
    simp [evaluate, hd, hhard, happ]
  · intro hd hhard happ
    simp [evaluate, hd, hhard, happ]

/-- Concrete run of the guardrail engine: a command matching both the
hard-block pattern and an approval-required pattern, in an allow-listed
directory, is classified Blocked. -/
theorem guardrail_evaluation_order_witness :
    (evaluate cfgEx ("sudo rm -rf /".toList) ("/Users/dev/work/app".toList)).isBlocked
      = true :=
  (guardrail_evaluation_order cfgEx ("sudo rm -rf /".toList)
      ("/Users/dev/work/app".toList)).2.1 ("rm -rf /".toList) (by decide) (by decide)

/-- C2: the approval review dialog — the view carrying the Approve and
Reject actions — renders the complete, unmodified command text and the
complete working directory of the selected pending approval. -/
theorem approval_dialog_shows_full_command (a : PendingApproval) :
    a.command ∈ approvalDialogTexts a
  ∧ a.cwd ∈ approvalDialogTexts a
  ∧ "Approve" ∈ approvalDialogTexts a
  ∧ "Reject" ∈ approvalDialogTexts a := by
  refine ⟨?_, ?_, ?_, ?_⟩ <;> simp [approvalDialogTexts]

/-- C3: from a snapshot whose command history holds at most 50 entries
and whose logs hold at most 100, a command delta keeps the history within
50 and a log delta keeps the logs within 100; in both cases the new entry
is appended at the end and only a leading (oldest) segment is evicted. -/
theorem ring_buffers_bounded (s : AppState) (c : CommandHistory) (entry : LogEntry)
    (hc : s.command_history.length ≤ 50) (hl : s.logs.length ≤ 100) :
    (∃ s', handleMessage (some s) (Event.command c) = some s'
        ∧ s'.command_history.length ≤ 50
        ∧ ∃ k, s'.command_history = s.command_history.drop k ++ [c])
  ∧ (∃ s', handleMessage (some s) (Event.log entry) = some s'
        ∧ s'.logs.length ≤ 100
        ∧ ∃ k, s'.logs = s.logs.drop k ++ [entry]) := by
  constructor
  · refine ⟨_, rfl, ?_, ⟨s.command_history.length - 49, rfl⟩⟩
    simp only [lastN, List.length_append, List.length_drop, List.length_cons,
      List.length_nil]
    omega
  · refine ⟨_, rfl, ?_, ⟨s.logs.length - 99, rfl⟩⟩
    simp only [lastN, List.length_append, List.length_drop, List.length_cons,
      List.length_nil]
    omega

/-- Concrete run of the command ring buffer starting from the empty
snapshot. -/
theorem ring_buffers_bounded_witness :
    ∃ s', handleMessage (some state0) (Event.command cmdEx) = some s'
      ∧ s'.command_history.length ≤ 50
      ∧ ∃ k, s'.command_history = state0.command_history.drop k ++ [cmdEx] :=
  (ring_buffers_bounded state0 cmdEx logEx (by decide) (by decide)).1

/-- C4: resolving an approval id removes exactly the pending approvals
carrying that id, keeps every other pending approval, leaves every other
snapshot field unchanged, and when no pending approval carries the id the
whole snapshot is unchanged. -/
theorem approval_resolved_removes_only_matching (s : AppState) (id : String) :
    ∃ s', handleMessage (some s) (Event.approvalResolved id) = some s'
      ∧ (∀ a ∈ s'.pending_approvals, a.id ≠ id)
      ∧ (∀ a ∈ s.pending_approvals, a.id ≠ id → a ∈ s'.pending_approvals)
      ∧ s'.current_project = s.current_project
      ∧ s'.services = s.services
      ∧ s'.command_history = s.command_history
      ∧ s'.logs = s.logs
      ∧ s'.workspace = s.workspace
      ∧ s'.saved_commands = s.saved_commands
      ∧ s'.plugins = s.plugins
      ∧ ((∀ a ∈ s.pending_approvals, a.id ≠ id) → s' = s) := by
  refine ⟨_, rfl, ?_, ?_, rfl, rfl, rfl, rfl, rfl, rfl, rfl, ?_⟩
  · intro a ha
    rw [List.mem_filter] at ha
    simpa using ha.2
  · intro a ha hne
    rw [List.mem_filter]
    exact ⟨ha, by simpa using hne⟩
  · intro h
    have hf : s.pending_approvals.filter (fun a => a.id != id) = s.pending_approvals :=
      List.filter_eq_self.mpr (fun a ha => by simpa using h a ha)
    show ({ s with pending_approvals := _ } : AppState) = s
    rw [hf]

/-- Concrete run of approval resolution on the two-approval snapshot. -/
theorem approval_resolved_removes_only_matching_witness :
    ∃ s', handleMessage (some stateAB) (Event.approvalResolved "ap-1") = some s'
      ∧ (∀ a ∈ s'.pending_approvals, a.id ≠ "ap-1") := by
  obtain ⟨s', h1, h2, -⟩ := approval_resolved_removes_only_matching stateAB "ap-1"
  exact ⟨s', h1, h2⟩

/-- C5: a service_stopped delta removes exactly the stopped id from the
services map — it is no longer present — while every other service and
every other snapshot field is unchanged. -/
theorem service_stopped_removes_service (s : AppState) (id : String) :
    ∃ s', handleMessage (some s) (Event.serviceStopped id) = some s'
      ∧ lookupService s'.services id = none
      ∧ (∀ k, k ≠ id → lookupService s'.services k = lookupService s.services k)
      ∧ s'.current_project = s.current_project
      ∧ s'.command_history = s.command_history
      ∧ s'.pending_approvals = s.pending_approvals
      ∧ s'.logs = s.logs
      ∧ s'.workspace = s.workspace
      ∧ s'.saved_commands = s.saved_commands
      ∧ s'.plugins = s.plugins := by
  refine ⟨_, rfl, ?_, ?_, rfl, rfl, rfl, rfl, rfl, rfl, rfl⟩
  · exact lookupService_removeService_self s.services id
  · intro k hk
    exact lookupService_removeService_other s.services id k hk

/-- Concrete run of service_stopped on the one-service snapshot. -/
theorem service_stopped_removes_service_witness :
    ∃ s', handleMessage (some stateSvc) (Event.serviceStopped "svc-1") = some s'
      ∧ lookupService s'.services "svc-1" = none := by
  obtain ⟨s', h1, h2, -⟩ := service_stopped_removes_service stateSvc "svc-1"
  exact ⟨s', h1, h2⟩

/-- C6: a full-snapshot event replaces the whole observer state with the
payload, so applying the same state event twice gives exactly the state
after applying it once. -/
theorem state_event_idempotent (prev : Option AppState) (snap : AppState) :
    handleMessage prev (Event.state snap) = some snap
  ∧ handleMessage (handleMessage prev (Event.state snap)) (Event.state snap)
      = handleMessage prev (Event.state snap) :=
  ⟨rfl, rfl⟩

/-- C7: the connection-open handler marks the connection live and its
first outgoing request is the full-snapshot request get_state, ahead of
any other message it sends. -/
theorem connect_requests_snapshot_first (c : ConnState) :
    (onOpen c).2.head? = some ClientMsg.getState
  ∧ (onOpen c).1.connected = true :=
  ⟨rfl, rfl⟩

/-- C8: every delta event arriving while the observer state is still null
is discarded — the state stays null; only a full-snapshot event moves the
observer out of the null state. -/
theorem delta_before_snapshot_discarded (e : Event) (h : e.isState = false) :
    handleMessage none e = none := by
  cases e <;> first | rfl | simp [Event.isState] at h

/-- Concrete run: a command delta before any snapshot leaves the observer
state null. -/
theorem delta_before_snapshot_discarded_witness :
    handleMessage none (Event.command cmdEx) = none :=
  delta_before_snapshot_discarded (Event.command cmdEx) rfl

/-- C9: a message whose type string is not among the handled event types
leaves the observer state unchanged; the handler is total, so no error is
raised. -/
theorem unhandled_event_ignored (prev : Option AppState) (t : String)
    (_h : t ∉ handledTypes) :
    handleMessage prev (Event.unknown t) = prev :=
  rfl

/-- Concrete run: an unrecognised event type changes nothing. -/
theorem unhandled_event_ignored_witness :
    handleMessage (some state0) (Event.unknown "resync") = some state0 :=
  unhandled_event_ignored (some state0) "resync" (by decide)

/-- C10: whenever sendCommand emits a run_command message, its command
field is exactly the input with leading and trailing whitespace removed,
that field is non-empty, and the input contained at least one
non-whitespace character. -/
theorem send_command_nonblank (input : Chars) (useNlp connOpen : Bool)
    (m : ClientMsg) (hsend : sendCommand input useNlp connOpen = some m) :
    m = ClientMsg.runCommand (jsTrim input) useNlp
    ∧ jsTrim input ≠ []
    ∧ ∃ c ∈ input, c.isWhitespace = false := by
  unfold sendCommand at hsend
  split at hsend
  · exact absurd hsend (by simp)
  · rename_i hcond
    rw [Bool.or_eq_true, not_or] at hcond
    obtain ⟨hempty, _⟩ := hcond
    have hne : jsTrim input ≠ [] := by
      intro hnil
      exact hempty (by simp [hnil])
    refine ⟨(Option.some.injEq _ _).mp hsend |>.symm, hne, ?_⟩
    by_contra hall
    push_neg at hall
    exact hne (jsTrim_eq_nil_of_all_ws input
      (fun c hc => by simpa using hall c hc))

/-- Concrete run of sendCommand on padded input. -/
theorem send_command_nonblank_witness :
    ClientMsg.runCommand ("ls -la".toList) false
      = ClientMsg.runCommand (jsTrim ("  ls -la  ".toList)) false
    ∧ jsTrim ("  ls -la  ".toList) ≠ []
    ∧ ∃ c ∈ ("  ls -la  ".toList), c.isWhitespace = false :=
  send_command_nonblank ("  ls -la  ".toList) false true
    (ClientMsg.runCommand ("ls -la".toList) false) (by decide)

end DevOrchestrator
